import Mathlib

/-!
Shallow embedding of the `ballgame` repository's wire protocol and streaming
framing layer (`src/protocol.rs`, plus the outbound server-state path in
`src/main.rs`).

Conventions of the embedding:
* A Rust byte (`u8`) is a `Nat` below 256; byte buffers (`Vec<u8>`, `&[u8]`)
  are `List Nat`.
* Machine-integer truncation (`as u32`, `to_be_bytes`) is explicit arithmetic
  on `Nat`: `u32ToBeBytes n` extracts the low 32 bits of `n` byte by byte, so
  it models `(n as u32).to_be_bytes()` for every `Nat` input.
* Rust code that can panic (out-of-bounds slice indexing such as
  `bytes[5..9]` on a short slice, and `.unwrap()`) is modelled by the
  `RustResult.panic` outcome; fallible code returns `RustResult.err` /
  `Except.error`.
* The payload serializers the source delegates to external crates
  (`bincode::options().with_big_endian().with_fixint_encoding()` and
  `serde_json`) are modelled concretely for the repository's `ClientPacket`
  payload type: fixed-width big-endian fields in declaration order for
  bincode, and the canonical compact JSON object form `serde_json::to_string`
  emits for this struct (decimal numbers, declaration-order keys, no
  whitespace) for JSON.
-/

namespace Ballgame

/-- Big-endian byte list of the low 32 bits of `n`; models
`(n as u32).to_be_bytes()` from the source. -/
def u32ToBeBytes (n : Nat) : List Nat :=
  [n / 16777216 % 256, n / 65536 % 256, n / 256 % 256, n % 256]

/-- Big-endian byte list of the low 64 bits of `n`; models
`(n as u64).to_be_bytes()` used by `Game::send_server_packet`. -/
def u64ToBeBytes (n : Nat) : List Nat :=
  [n / 72057594037927936 % 256, n / 281474976710656 % 256,
   n / 1099511627776 % 256, n / 4294967296 % 256,
   n / 16777216 % 256, n / 65536 % 256, n / 256 % 256, n % 256]

/-- Big-endian value of a byte list; models `u32::from_be_bytes` on a
4-byte slice. -/
def beVal (l : List Nat) : Nat :=
  l.foldl (fun a b => a * 256 + b) 0

/-- The error taxonomy of the framing layer (the source reports these as
`anyhow` errors with the messages "Length mismatch", "Id mismatch",
"Unknown protocol", and serde decode failures). -/
inductive FramingError where
  | lengthMismatch
  | typeMismatch
  | unknownEncoding
  | malformedContent
deriving DecidableEq, Repr

/-- Outcome of running a piece of Rust code that may panic (slice index out
of bounds, `.unwrap()` on `Err`) or return a reportable error. -/
inductive RustResult (α : Type) where
  | panic
  | err (e : FramingError)
  | ok (a : α)
deriving DecidableEq, Repr

/-- The capabilities of a payload type `T`: its `Packet::id()` together with
the byte-level behaviour of the two external serializers the source invokes
(`bincode` big-endian fixint, and `serde_json`). -/
structure PacketImpl (T : Type) where
  id : Nat
  bincodeSer : T → List Nat
  bincodeDe : List Nat → Option T
  jsonSer : T → List Nat
  jsonDe : List Nat → Option T

/-- `PacketProtocol<T>` from `src/protocol.rs` lines 18-27. -/
inductive PacketProtocol (T : Type) where
  | raw (id : Nat) (protocol : Nat) (content : List Nat)
  | zero (data : T)
  | json (data : T)
deriving DecidableEq, Repr

/-- The envelope layout built by `PacketProtocol::serialize` lines 112-118:
`id.to_be_bytes() ++ protocol.to_be_bytes() ++ (content.len() as u32).to_be_bytes() ++ content`. -/
def mkEnvelope (id protocol : Nat) (content : List Nat) : List Nat :=
  u32ToBeBytes id ++ [protocol % 256] ++ u32ToBeBytes content.length ++ content

/-- `PacketProtocol::serialize` (`src/protocol.rs` lines 88-119).  For the
modelled payload types both external serializers are total, so the source's
`anyhow::Result` layer never carries an error and is omitted. -/
def PacketProtocol.serialize {T : Type} (P : PacketImpl T) : PacketProtocol T → List Nat
  | .raw id protocol content => mkEnvelope id protocol content
  | .zero data => mkEnvelope P.id 0 (P.bincodeSer data)
  | .json data => mkEnvelope P.id 1 (P.jsonSer data)

/-- `PacketProtocol::deserialize` (`src/protocol.rs` lines 121-147): on the
`Raw` variant, check `id != T::id()` first, then dispatch on the protocol
byte (0 = bincode, 1 = serde_json, otherwise "Unknown protocol"); the typed
variants return their payload unchanged. -/
def PacketProtocol.deserialize {T : Type} (P : PacketImpl T) :
    PacketProtocol T → Except FramingError T
  | .raw id protocol content =>
      if id ≠ P.id then .error .typeMismatch
      else if protocol = 0 then
        match P.bincodeDe content with
        | some t => .ok t
        | none => .error .malformedContent
      else if protocol = 1 then
        match P.jsonDe content with
        | some t => .ok t
        | none => .error .malformedContent
      else .error .unknownEncoding
  | .zero data => .ok data
  | .json data => .ok data

/-- `TryFrom<&[u8]> for PacketProtocol<T>` (`src/protocol.rs` lines 165-182).
The source slices `bytes[0..4]`, `bytes[4..5]`, `bytes[5..9]`, `bytes[9..]`
before any length check, so every input shorter than 9 bytes panics with an
out-of-bounds range; on 9 bytes or more the fields parse and the declared
length is compared against the actual trailing byte count. -/
def tryFrom (T : Type) (bytes : List Nat) : RustResult (PacketProtocol T) :=
  match bytes with
  | b0 :: b1 :: b2 :: b3 :: b4 :: b5 :: b6 :: b7 :: b8 :: content =>
      if beVal [b5, b6, b7, b8] ≠ content.length then .err .lengthMismatch
      else .ok (.raw (beVal [b0, b1, b2, b3]) b4 content)
  | _ => .panic

/-- The out-of-band decode path of the spec: `try_from` followed by
`deserialize` with expected type `T` (the composition the round-trip and
concrete-scenario claims are about). -/
def decodeEnvelope {T : Type} (P : PacketImpl T) (bytes : List Nat) : RustResult T :=
  match tryFrom T bytes with
  | .panic => .panic
  | .err e => .err e
  | .ok pkt =>
      match pkt.deserialize P with
      | .ok t => .ok t
      | .error e => .err e

/-- `PacketBufState` (`src/protocol.rs` lines 13-16). -/
inductive PacketBufState where
  | header
  | content
deriving DecidableEq, Repr

/-- `PacketBuf` (`src/protocol.rs` lines 8-11). -/
structure PacketBuf where
  buf : List Nat
  state : PacketBufState
deriving DecidableEq, Repr

/-- `PacketBuf::new` (`src/protocol.rs` lines 54-59). -/
def PacketBuf.new : PacketBuf := ⟨[], .header⟩

/-- The `PacketBufState::Content` arm of `PacketBuf::process`
(`src/protocol.rs` lines 73-82): read `content_length` from `self.buf[5..9]`
(panicking when fewer than 9 bytes are buffered), wait if the buffer is
shorter than header+content, otherwise drain the packet bytes and
`unwrap()` the `try_from` result.  The source never assigns
`self.state = Header` here, so the state stays `Content` after an emit. -/
def processContent (T : Type) (buf : List Nat) :
    RustResult (PacketBuf × Option (PacketProtocol T)) :=
  match buf with
  | _ :: _ :: _ :: _ :: _ :: b5 :: b6 :: b7 :: b8 :: _ =>
      let packetLength := 9 + beVal [b5, b6, b7, b8]
      if buf.length < packetLength then .ok (⟨buf, .content⟩, none)
      else
        match tryFrom T (buf.take packetLength) with
        | .ok p => .ok (⟨buf.drop packetLength, .content⟩, some p)
        | _ => .panic
  | _ => .panic

/-- `PacketBuf::process` (`src/protocol.rs` lines 61-84): extend the buffer
with the chunk; in the `Header` state return `None` below 9 buffered bytes,
otherwise flip to `Content` and recurse with an empty chunk (modelled by
calling the content arm directly on the unchanged buffer). -/
def PacketBuf.process (T : Type) (pb : PacketBuf) (bytes : List Nat) :
    RustResult (PacketBuf × Option (PacketProtocol T)) :=
  let buf := pb.buf ++ bytes
  match pb.state with
  | .header =>
      if buf.length < 9 then .ok (⟨buf, .header⟩, none)
      else processContent T buf
  | .content => processContent T buf

/-- Feed a list of chunks to a reassembler in order, collecting the emitted
envelopes; a panic or error in any call aborts the run. -/
def feedChunks (T : Type) (pb : PacketBuf) :
    List (List Nat) → RustResult (PacketBuf × List (PacketProtocol T))
  | [] => .ok (pb, [])
  | c :: cs =>
    match pb.process T c with
    | .panic => .panic
    | .err e => .err e
    | .ok (pb2, out) =>
      match feedChunks T pb2 cs with
      | .panic => .panic
      | .err e => .err e
      | .ok (pb3, outs) => .ok (pb3, out.toList ++ outs)

/-- `ClientPacket` (`src/protocol.rs` lines 33-38): `player_id: u32`,
`orientation: u32`, `propulsor: u8`, modelled as `Nat` fields with the
machine-width bounds carried as hypotheses where needed. -/
structure ClientPacket where
  player_id : Nat
  orientation : Nat
  propulsor : Nat
deriving DecidableEq, Repr

/-- Byte-level behaviour of
`bincode::options().with_big_endian().with_fixint_encoding().serialize` on
`ClientPacket`: each field in declaration order, fixed width, big-endian. -/
def clientBincodeSer (p : ClientPacket) : List Nat :=
  u32ToBeBytes p.player_id ++ u32ToBeBytes p.orientation ++ [p.propulsor]

/-- Byte-level behaviour of the matching `bincode` deserialize on
`ClientPacket`: exactly 4 + 4 + 1 bytes (the configured options reject
trailing bytes), decoded in declaration order. -/
def clientBincodeDe (bytes : List Nat) : Option ClientPacket :=
  match bytes with
  | [a, b, c, d, e, f, g, h, i] =>
      some ⟨beVal [a, b, c, d], beVal [e, f, g, h], i⟩
  | _ => none

/-- Decimal digit characters (ASCII codes, most significant first) of a
positive number; empty for 0. -/
def decAux (n : Nat) : List Nat :=
  if h : n = 0 then []
  else decAux (n / 10) ++ [n % 10 + 48]
decreasing_by exact Nat.div_lt_self (Nat.pos_of_ne_zero h) (by norm_num)

/-- ASCII decimal rendering of a `Nat`, as `serde_json` prints unsigned
integers. -/
def natToDecimal (n : Nat) : List Nat :=
  if n = 0 then [48] else decAux n

/-- Split a byte list into its longest prefix of ASCII decimal digits and
the rest. -/
def takeDigits : List Nat → List Nat × List Nat
  | [] => ([], [])
  | c :: cs =>
      if 48 ≤ c ∧ c ≤ 57 then
        (c :: (takeDigits cs).1, (takeDigits cs).2)
      else ([], c :: cs)

/-- Numeric value of a most-significant-first ASCII digit list. -/
def digitsVal (ds : List Nat) : Nat :=
  ds.foldl (fun a c => a * 10 + (c - 48)) 0

/-- Parse a nonempty run of ASCII decimal digits from the front of a byte
list, returning its value and the remaining bytes. -/
def parseNat (l : List Nat) : Option (Nat × List Nat) :=
  match takeDigits l with
  | ([], _) => none
  | (ds, rest) => some (digitsVal ds, rest)

/-- Consume an exact literal byte sequence from the front of a byte list. -/
def expectChars : List Nat → List Nat → Option (List Nat)
  | [], l => some l
  | _ :: _, [] => none
  | p :: ps, x :: xs => if x = p then expectChars ps xs else none

/-- ASCII bytes of the text between the opening brace and the first value in
`serde_json`'s output for `ClientPacket`, i.e. the characters of
the string \x7b"player_id": . -/
def jsonKey1 : List Nat := [123, 34, 112, 108, 97, 121, 101, 114, 95, 105, 100, 34, 58]

/-- ASCII bytes of ,"orientation": . -/
def jsonKey2 : List Nat := [44, 34, 111, 114, 105, 101, 110, 116, 97, 116, 105, 111, 110, 34, 58]

/-- ASCII bytes of ,"propulsor": . -/
def jsonKey3 : List Nat := [44, 34, 112, 114, 111, 112, 117, 108, 115, 111, 114, 34, 58]

/-- Byte-level behaviour of `serde_json::to_string` on `ClientPacket`
(`Serialize` derived on the struct): the compact object with the three keys
in declaration order and decimal unsigned values, closed by the byte 125. -/
def clientJsonSer (p : ClientPacket) : List Nat :=
  jsonKey1 ++ (natToDecimal p.player_id ++ (jsonKey2 ++ (natToDecimal p.orientation ++
    (jsonKey3 ++ (natToDecimal p.propulsor ++ [125])))))

/-- Byte-level behaviour of `serde_json::from_slice::<ClientPacket>` on the
canonical object grammar produced by `clientJsonSer`: each key, then a run
of decimal digits checked against the target field's machine width (`u32`,
`u32`, `u8`), then the closing byte 125 with nothing trailing.  (The real
parser is additionally tolerant of whitespace, key reordering and escapes;
the model covers the subset that its own printer emits, which is what the
round-trip claims exercise.) -/
def clientJsonDe (l : List Nat) : Option ClientPacket :=
  (expectChars jsonKey1 l).bind fun l1 =>
  (parseNat l1).bind fun v1 =>
  if 4294967296 ≤ v1.1 then none else
  (expectChars jsonKey2 v1.2).bind fun l2 =>
  (parseNat l2).bind fun v2 =>
  if 4294967296 ≤ v2.1 then none else
  (expectChars jsonKey3 v2.2).bind fun l3 =>
  (parseNat l3).bind fun v3 =>
  if 256 ≤ v3.1 then none else
  (expectChars [125] v3.2).bind fun l4 =>
  if l4 = [] then some ⟨v1.1, v2.1, v3.1⟩ else none

/-- The `Packet` implementation for `ClientPacket`
(`src/protocol.rs` lines 150-154): `id() = 0x00`, together with the
byte-level models of the two serializers on this type. -/
def clientPacketImpl : PacketImpl ClientPacket where
  id := 0
  bincodeSer := clientBincodeSer
  bincodeDe := clientBincodeDe
  jsonSer := clientJsonSer
  jsonDe := clientJsonDe

/-- `Ship` (`src/main.rs` lines 26-35), as consumed by
`send_server_binary_message`: the `f32` fields (`position`, `velocity`,
`orientation`) are carried as their 32-bit IEEE-754 bit patterns, since the
message builder only ever forwards their `to_be_bytes()` form; `id` and
`hits` are `i32` bit patterns. -/
structure Ship where
  id : Nat
  posX : Nat
  posY : Nat
  velX : Nat
  velY : Nat
  orientation : Nat
  design : Nat
  prop0 : Bool
  prop1 : Bool
  prop2 : Bool
  prop3 : Bool
  hits : Nat
deriving DecidableEq, Repr

/-- The per-ship byte block of `Game::send_server_binary_message`
(`src/main.rs` lines 224-254): id, position, velocity, orientation as
big-endian 4-byte fields, then the design byte, the thruster bit mask, and
the hit counter. -/
def shipBytes (s : Ship) : List Nat :=
  u32ToBeBytes s.id ++ u32ToBeBytes s.posX ++ u32ToBeBytes s.posY ++
  u32ToBeBytes s.velX ++ u32ToBeBytes s.velY ++ u32ToBeBytes s.orientation ++
  [s.design % 256] ++
  [(if s.prop0 then 1 else 0) + (if s.prop1 then 2 else 0) +
   (if s.prop2 then 4 else 0) + (if s.prop3 then 8 else 0)] ++
  u32ToBeBytes s.hits

/-- `Game::send_server_binary_message` (`src/main.rs` lines 224-254) over
the game's ship list. -/
def sendServerBinaryMessage (ships : List Ship) : List Nat :=
  ships.foldl (fun acc s => acc ++ shipBytes s) []

/-- `Game::send_server_packet` (`src/main.rs` lines 256-272): protocol 0
uses the binary message, every other protocol id substitutes the 4-byte
zero placeholder; the header is then built as `id` (4 bytes BE),
`protocol_id` (1 byte), and the message length as a `u64` (8 bytes BE). -/
def sendServerPacket (ships : List Ship) (id : Nat) (protocolId : Nat) : List Nat :=
  let message := if protocolId = 0 then sendServerBinaryMessage ships else [0, 0, 0, 0]
  u32ToBeBytes id ++ [protocolId % 256] ++ u64ToBeBytes message.length ++ message

theorem beVal_u32ToBeBytes (n : Nat) (h : n < 4294967296) :
    beVal (u32ToBeBytes n) = n := by
  simp [beVal, u32ToBeBytes, List.foldl]
  omega

theorem clientBincodeSer_length (p : ClientPacket) :
    (clientBincodeSer p).length = 9 := by
  simp [clientBincodeSer, u32ToBeBytes]

theorem clientBincode_roundtrip (p : ClientPacket)
    (h1 : p.player_id < 4294967296) (h2 : p.orientation < 4294967296) :
    clientBincodeDe (clientBincodeSer p) = some p := by
  obtain ⟨pid, ori, prop⟩ := p
  simp only at h1 h2
  simp only [clientBincodeSer, u32ToBeBytes, List.cons_append, List.nil_append,
    clientBincodeDe, beVal, List.foldl, Option.some.injEq, ClientPacket.mk.injEq]
  refine ⟨by omega, by omega, trivial⟩

theorem tryFrom_mkEnvelope (T : Type) (id protocol : Nat) (content : List Nat)
    (hid : id < 4294967296) (hp : protocol < 256)
    (hlen : content.length < 4294967296) :
    tryFrom T (mkEnvelope id protocol content) = .ok (.raw id protocol content) := by
  simp only [mkEnvelope, u32ToBeBytes, List.cons_append, List.nil_append, tryFrom,
    beVal, List.foldl]
  rw [if_neg (by omega)]
  simp only [RustResult.ok.injEq, PacketProtocol.raw.injEq]
  refine ⟨by omega, Nat.mod_eq_of_lt hp, trivial⟩

theorem decAux_digits (n : Nat) : ∀ c ∈ decAux n, 48 ≤ c ∧ c ≤ 57 := by
  induction n using Nat.strong_induction_on with
  | _ n ih =>
    rw [decAux]
    split
    · simp
    · rename_i h
      intro c hc
      rw [List.mem_append] at hc
      rcases hc with hc | hc
      · exact ih _ (Nat.div_lt_self (Nat.pos_of_ne_zero h) (by norm_num)) c hc
      · simp only [List.mem_singleton] at hc
        omega

theorem decAux_foldl (n : Nat) : ∀ a : Nat,
    (decAux n).foldl (fun a c => a * 10 + (c - 48)) a =
      a * 10 ^ (decAux n).length + n := by
  induction n using Nat.strong_induction_on with
  | _ n ih =>
    intro a
    rw [decAux]
    split
    · rename_i h
      subst h
      simp
    · rename_i h
      rw [List.foldl_append]
      simp only [List.foldl_cons, List.foldl_nil, List.length_append,
        List.length_cons, List.length_nil, Nat.zero_add]
      rw [ih (n / 10) (Nat.div_lt_self (Nat.pos_of_ne_zero h) (by norm_num)) a]
      have hd : n % 10 + 48 - 48 = n % 10 := by omega
      rw [hd]
      have hdm : n / 10 * 10 + n % 10 = n := by omega
      calc (a * 10 ^ (decAux (n / 10)).length + n / 10) * 10 + n % 10
          = a * (10 ^ (decAux (n / 10)).length * 10) + (n / 10 * 10 + n % 10) := by
            ring
        _ = a * 10 ^ ((decAux (n / 10)).length + 1) + n := by
            rw [hdm, ← pow_succ]

theorem decAux_length_le (k : Nat) : ∀ n : Nat, n < 10 ^ k →
    (decAux n).length ≤ k := by
  induction k with
  | zero =>
    intro n h
    have hn : n = 0 := by simpa using h
    subst hn
    rw [decAux]
    simp
  | succ k ih =>
    intro n h
    rw [decAux]
    split
    · simp
    · simp only [List.length_append, List.length_cons, List.length_nil, Nat.zero_add]
      have hdiv : n / 10 < 10 ^ k := by
        rw [Nat.div_lt_iff_lt_mul (by norm_num)]
        calc n < 10 ^ (k + 1) := h
          _ = 10 ^ k * 10 := by rw [pow_succ]
      have := ih (n / 10) hdiv
      omega

theorem natToDecimal_digits (n : Nat) : ∀ c ∈ natToDecimal n, 48 ≤ c ∧ c ≤ 57 := by
  rw [natToDecimal]
  split
  · intro c hc
    simp only [List.mem_singleton] at hc
    omega
  · exact decAux_digits n

theorem natToDecimal_ne_nil (n : Nat) : natToDecimal n ≠ [] := by
  rw [natToDecimal]
  split
  · simp
  · rename_i h
    rw [decAux, dif_neg h]
    simp

theorem digitsVal_natToDecimal (n : Nat) : digitsVal (natToDecimal n) = n := by
  rw [natToDecimal]
  split
  · rename_i h
    subst h
    rfl
  · rw [digitsVal, decAux_foldl]
    simp

theorem natToDecimal_length_le (n : Nat) (h : n < 10000000000) :
    (natToDecimal n).length ≤ 10 := by
  rw [natToDecimal]
  split
  · simp
  · exact decAux_length_le 10 n (by norm_num; exact h)

/-- The first byte of `rest` (if any) is not an ASCII digit. -/
def headNonDigit : List Nat → Prop
  | [] => True
  | c :: _ => ¬(48 ≤ c ∧ c ≤ 57)

theorem takeDigits_append (ds rest : List Nat)
    (hds : ∀ c ∈ ds, 48 ≤ c ∧ c ≤ 57) (hrest : headNonDigit rest) :
    takeDigits (ds ++ rest) = (ds, rest) := by
  induction ds with
  | nil =>
    simp only [List.nil_append]
    cases rest with
    | nil => rfl
    | cons c cs =>
      rw [takeDigits, if_neg hrest]
  | cons c cs ih =>
    simp only [List.cons_append]
    rw [takeDigits, if_pos (hds c (List.mem_cons_self c cs)),
      ih (fun x hx => hds x (List.mem_cons_of_mem c hx))]

theorem parseNat_natToDecimal (n : Nat) (rest : List Nat)
    (hrest : headNonDigit rest) :
    parseNat (natToDecimal n ++ rest) = some (n, rest) := by
  rw [parseNat, takeDigits_append _ _ (natToDecimal_digits n) hrest]
  cases hnd : natToDecimal n with
  | nil => exact absurd hnd (natToDecimal_ne_nil n)
  | cons c cs =>
    have hv : digitsVal (c :: cs) = n := by rw [← hnd, digitsVal_natToDecimal]
    simp [hv]

theorem expectChars_append (pat rest : List Nat) :
    expectChars pat (pat ++ rest) = some rest := by
  induction pat with
  | nil => rfl
  | cons p ps ih =>
    simp only [List.cons_append]
    rw [expectChars, if_pos rfl, ih]

theorem clientJson_roundtrip (p : ClientPacket)
    (h1 : p.player_id < 4294967296) (h2 : p.orientation < 4294967296)
    (h3 : p.propulsor < 256) :
    clientJsonDe (clientJsonSer p) = some p := by
  obtain ⟨pid, ori, prop⟩ := p
  simp only at h1 h2 h3
  rw [clientJsonSer, clientJsonDe]
  rw [expectChars_append]
  simp only [Option.some_bind]
  rw [parseNat_natToDecimal pid _ (by simp only [jsonKey2, List.cons_append, headNonDigit]; omega)]
  simp only [Option.some_bind]
  rw [if_neg (by omega), expectChars_append]
  simp only [Option.some_bind]
  rw [parseNat_natToDecimal ori _ (by simp only [jsonKey3, List.cons_append, headNonDigit]; omega)]
  simp only [Option.some_bind]
  rw [if_neg (by omega), expectChars_append]
  simp only [Option.some_bind]
  rw [parseNat_natToDecimal prop _ (by simp only [headNonDigit]; omega)]
  simp only [Option.some_bind]
  rw [if_neg (by omega)]
  rfl

theorem clientJsonSer_length_lt (p : ClientPacket)
    (h1 : p.player_id < 4294967296) (h2 : p.orientation < 4294967296)
    (h3 : p.propulsor < 256) :
    (clientJsonSer p).length < 4294967296 := by
  have l1 := natToDecimal_length_le p.player_id (by omega)
  have l2 := natToDecimal_length_le p.orientation (by omega)
  have l3 := natToDecimal_length_le p.propulsor (by omega)
  simp only [clientJsonSer, jsonKey1, jsonKey2, jsonKey3, List.length_append,
    List.length_cons, List.length_nil]
  omega

/-- C1: for every client-input payload value within its machine-integer
field widths and both supported encodings (0 = fixed-endian binary via
`PacketProtocol::Zero`, 1 = text/JSON via `PacketProtocol::Json`),
serializing and then decoding the envelope bytes via `try_from` followed by
`deserialize` against the same payload type returns exactly the payload. -/
theorem c1_roundtrip (p : ClientPacket)
    (h1 : p.player_id < 4294967296) (h2 : p.orientation < 4294967296)
    (h3 : p.propulsor < 256) :
    decodeEnvelope clientPacketImpl
        (PacketProtocol.serialize clientPacketImpl (.zero p)) = .ok p ∧
    decodeEnvelope clientPacketImpl
        (PacketProtocol.serialize clientPacketImpl (.json p)) = .ok p := by
  constructor
  · have hser : PacketProtocol.serialize clientPacketImpl (.zero p) =
        mkEnvelope 0 0 (clientBincodeSer p) := rfl
    have htf := tryFrom_mkEnvelope ClientPacket 0 0 (clientBincodeSer p)
      (by norm_num) (by norm_num) (by rw [clientBincodeSer_length]; norm_num)
    rw [decodeEnvelope, hser, htf]
    simp [PacketProtocol.deserialize, clientPacketImpl, clientBincode_roundtrip p h1 h2]
  · have hser : PacketProtocol.serialize clientPacketImpl (.json p) =
        mkEnvelope 0 1 (clientJsonSer p) := rfl
    have htf := tryFrom_mkEnvelope ClientPacket 0 1 (clientJsonSer p)
      (by norm_num) (by norm_num) (clientJsonSer_length_lt p h1 h2 h3)
    rw [decodeEnvelope, hser, htf]
    simp [PacketProtocol.deserialize, clientPacketImpl, clientJson_roundtrip p h1 h2 h3]

/-- Witness for C1: the concrete record with `player_id = 1`,
`orientation = 5`, `propulsor = 13` round-trips under both encodings. -/
theorem c1_roundtrip_w :
    decodeEnvelope clientPacketImpl
        (PacketProtocol.serialize clientPacketImpl (.zero ⟨1, 5, 13⟩)) = .ok ⟨1, 5, 13⟩ ∧
    decodeEnvelope clientPacketImpl
        (PacketProtocol.serialize clientPacketImpl (.json ⟨1, 5, 13⟩)) = .ok ⟨1, 5, 13⟩ :=
  c1_roundtrip ⟨1, 5, 13⟩ (by decide) (by decide) (by decide)

/-- C2: refuted on the code — feeding the same two-envelope byte stream
(two envelopes with `content_length = 0`) as one 18-byte chunk emits the
first envelope and keeps every remaining byte buffered, but feeding the
identical stream as chunks of sizes 10, 1, 7 panics at the second chunk:
after the first emit the reassembler is left in the `Content` state and
`self.buf[5..9]` is evaluated on a 2-byte buffer. -/
theorem c2_chunking_not_invariant :
    feedChunks ClientPacket PacketBuf.new
        [[0, 0, 0, 0, 0, 0, 0, 0, 0, 0, 0, 0, 0, 0, 0, 0, 0, 0]] =
      .ok (⟨[0, 0, 0, 0, 0, 0, 0, 0, 0], .content⟩, [.raw 0 0 []]) ∧
    feedChunks ClientPacket PacketBuf.new
        [[0, 0, 0, 0, 0, 0, 0, 0, 0, 0], [0], [0, 0, 0, 0, 0, 0, 0]] = .panic :=
  ⟨rfl, rfl⟩

/-- C3: refuted on the code — the framing layer can panic on
attacker-controllable input: `PacketProtocol::try_from` slices `bytes[0..4]`
and `bytes[5..9]` before any length check, so a 4-byte slice panics; and a
`PacketBuf` left in the `Content` state with 3 buffered bytes (reachable by
an emit that leaves a 3-byte remainder) panics on its next `process` call. -/
theorem c3_framing_panics :
    tryFrom ClientPacket [0, 0, 0, 0] = .panic ∧
    PacketBuf.process ClientPacket ⟨[0, 0, 0], .content⟩ [] = .panic :=
  ⟨rfl, rfl⟩

/-- C4: refuted on the code — `Game::send_server_packet` writes the message
length as a `u64`, producing a 13-byte header (4 + 1 + 8) for an empty
binary message, while the envelope layout shared by the codec and the
reassembler (`mkEnvelope`, with a 4-byte length) is 9 bytes for the same
empty content. -/
theorem c4_sendServerPacket_header_13_bytes :
    sendServerPacket [] 0 0 = [0, 0, 0, 0, 0, 0, 0, 0, 0, 0, 0, 0, 0] ∧
    (sendServerPacket [] 0 0).length = 13 ∧ (mkEnvelope 0 0 []).length = 9 :=
  ⟨rfl, rfl, rfl⟩

/-- C5: refuted on the code — after emitting a complete envelope
`PacketBuf::process` does remove exactly that envelope's bytes, but it
leaves the state machine in `Content` instead of returning to
`AwaitingHeader`, so the very next call (here with an empty chunk on an
empty buffer) panics on `self.buf[5..9]` instead of framing the next
envelope from its header. -/
theorem c5_state_not_reset :
    PacketBuf.process ClientPacket PacketBuf.new [0, 0, 0, 0, 0, 0, 0, 0, 0] =
      .ok (⟨[], .content⟩, some (.raw 0 0 [])) ∧
    PacketBuf.process ClientPacket ⟨[], .content⟩ [] = .panic :=
  ⟨rfl, rfl⟩

/-- C6: for every byte sequence of length at least 9 (written as nine
leading bytes followed by the content tail) whose declared big-endian
`content_length` field differs from the number of trailing bytes,
`try_from` fails with the length-mismatch error and produces no packet. -/
theorem c6_length_mismatch (T : Type) (b0 b1 b2 b3 b4 b5 b6 b7 b8 : Nat)
    (content : List Nat) (h : beVal [b5, b6, b7, b8] ≠ content.length) :
    tryFrom T (b0 :: b1 :: b2 :: b3 :: b4 :: b5 :: b6 :: b7 :: b8 :: content) =
      .err .lengthMismatch := by
  simp [tryFrom, h]

/-- Witness for C6: a 9-byte input declaring content length 5 with no
trailing bytes is rejected with a length mismatch. -/
theorem c6_length_mismatch_w :
    tryFrom ClientPacket [0, 0, 0, 0, 0, 0, 0, 0, 5] = .err .lengthMismatch :=
  c6_length_mismatch ClientPacket 0 0 0 0 0 0 0 0 5 [] (by decide)

/-- C7: deserializing a `Raw` envelope whose `type_id` differs from the
expected payload type's id fails with the type-mismatch error before any
content decoding is attempted, for every protocol byte and every content. -/
theorem c7_type_mismatch {T : Type} (P : PacketImpl T) (id protocol : Nat)
    (content : List Nat) (h : id ≠ P.id) :
    PacketProtocol.deserialize P (.raw id protocol content) = .error .typeMismatch := by
  simp [PacketProtocol.deserialize, h]

/-- Witness for C7: a validly-framed envelope with `type_id = 1` decoded
against `ClientPacket` (whose id is 0) fails with a type mismatch. -/
theorem c7_type_mismatch_w :
    PacketProtocol.deserialize clientPacketImpl (.raw 1 0 []) = .error .typeMismatch :=
  c7_type_mismatch clientPacketImpl 1 0 [] (by decide)

/-- C8: refuted on the code's encode path — decoding a `Raw` envelope whose
encoding selector is 2 does fail with the unknown-encoding error, but the
outbound path `Game::send_server_packet` with selector 2 succeeds and
substitutes the 4-byte zero placeholder as content instead of failing. -/
theorem c8_unknown_encoding_zero_pads :
    PacketProtocol.deserialize clientPacketImpl (.raw 0 2 [0, 0, 0, 0]) =
      .error .unknownEncoding ∧
    sendServerPacket [] 0 2 = [0, 0, 0, 0, 2, 0, 0, 0, 0, 0, 0, 0, 4, 0, 0, 0, 0] :=
  ⟨rfl, rfl⟩

/-- C9: encoding the client-input record with `player_id = 1`,
`orientation = 5`, `propulsor = 0b1101` under selector 0 produces exactly
the 18 claimed bytes, and decoding exactly those 18 bytes against
`ClientPacket` reproduces the record. -/
theorem c9_concrete_scenario :
    PacketProtocol.serialize clientPacketImpl (.zero ⟨1, 5, 13⟩) =
      [0, 0, 0, 0, 0, 0, 0, 0, 9, 0, 0, 0, 1, 0, 0, 0, 5, 13] ∧
    decodeEnvelope clientPacketImpl
        [0, 0, 0, 0, 0, 0, 0, 0, 9, 0, 0, 0, 1, 0, 0, 0, 5, 13] = .ok ⟨1, 5, 13⟩ :=
  ⟨rfl, rfl⟩

/-- C10: `deserialize` on the already-typed variants returns the payload
unchanged and never fails, for every payload implementation and every
payload value — the id and selector checks only run on the `Raw` variant. -/
theorem c10_typed_variants_bypass {T : Type} (P : PacketImpl T) (p : T) :
    PacketProtocol.deserialize P (.zero p) = .ok p ∧
    PacketProtocol.deserialize P (.json p) = .ok p :=
  ⟨rfl, rfl⟩

end Ballgame
